import Mathlib

/-!
Shallow embedding of the game-scores-api score handlers (`internal/handlers`
package, `GameScoresHandler`), the statistics helpers `calculateMean`,
`calculateMedian`, `calculateMode`, and an abstract model of the persistence
collaborator (the generated ent query layer), together with theorems settling
the specification claims about them.

Go `int64` values are modelled as `Int` with explicit wraparound (`wrap64`)
at the additions where overflow can occur, and Go's truncating division `/`
is `Int.tdiv`.
-/

/-! ## Go int64 arithmetic -/

/-- Smallest Go `int64` value, `-2^63`. -/
def int64Lo : Int := -(2 ^ 63)

/-- Largest Go `int64` value, `2^63 - 1`. -/
def int64Hi : Int := 2 ^ 63 - 1

/-- Wraparound of Go signed 64-bit arithmetic: reduce an integer modulo
`2^64` into the representable window `[-2^63, 2^63 - 1]`. -/
def wrap64 (x : Int) : Int := (x + 2 ^ 63) % 2 ^ 64 - 2 ^ 63

/-! ## Decimal-string encoding of scores

`parseInt64` models Go `strconv.ParseInt(s, 10, 64)`: an optional leading
sign, then at least one ASCII digit, with a range check against `int64`;
everything else is an error (`none`).  `formatInt` models
`strconv.FormatInt(v, 10)`: the canonical decimal representation. -/

/-- The numeric value of an ASCII decimal digit, `none` for non-digits. -/
def digitVal (c : Char) : Option Nat :=
  if '0' ≤ c ∧ c ≤ '9' then some (c.toNat - 48) else none

/-- Accumulate a digit string into a natural number; `none` on any
non-digit character. -/
def digitsToNat (cs : List Char) : Option Nat :=
  cs.foldl
    (fun acc c =>
      match acc, digitVal c with
      | some n, some d => some (n * 10 + d)
      | _, _ => none)
    (some 0)

/-- Models Go `strconv.ParseInt(s, 10, 64)` as used by `UpdateGameScore`:
optional `+`/`-` sign, one or more decimal digits, value within the
`int64` range; any other input is an error. -/
def parseInt64 (s : String) : Option Int :=
  let signDigits : Int × List Char :=
    match s.data with
    | '+' :: cs => (1, cs)
    | '-' :: cs => (-1, cs)
    | cs => (1, cs)
  if signDigits.2.isEmpty then none
  else
    match digitsToNat signDigits.2 with
    | none => none
    | some n =>
      let v : Int := signDigits.1 * n
      if v < int64Lo ∨ int64Hi < v then none else some v

/-- Models Go `strconv.FormatInt(v, 10)`: canonical decimal representation,
with a leading `-` for negative values and no leading zeros. -/
def formatInt (v : Int) : String := toString v

/-! ## Statistics helpers (from the source file, `calculateMean`,
`calculateMedian`, `calculateMode`) -/

/-- The running sum loop of `calculateMean` (`sum += score` over an
`int64` accumulator): each addition wraps around. -/
def goSum (scores : List Int) : Int :=
  scores.foldl (fun s v => wrap64 (s + v)) 0

/-- Function `calculateMean` from the source: `*mean = sum / int64(len(scores))`,
with Go truncating division. -/
def calculateMean (scores : List Int) : Int :=
  (goSum scores).tdiv (scores.length : Int)

/-- Function `calculateMedian` from the source (the caller passes the scores sorted
descending): `mid := len/2`; for even length
`(scores[mid-1] + scores[mid]) / 2` (the `int64` addition wraps), for odd
length `scores[mid]`. -/
def calculateMedian (scores : List Int) : Int :=
  let mid := scores.length / 2
  if scores.length % 2 = 0 then
    (wrap64 (scores.getD (mid - 1) 0 + scores.getD mid 0)).tdiv 2
  else scores.getD mid 0

/-- The maximum occurrence frequency tracked by the loop of
`calculateMode`: after the loop, `maxFreq` is the largest total count of
any value of the list. -/
def maxFreq (scores : List Int) : Nat :=
  (scores.map (fun v => scores.count v)).foldr max 0

/-- Function `calculateMode` from the source: if the maximum frequency is 1 the
mode is empty; otherwise every distinct value whose frequency equals the
maximum is collected (the Go map iteration order is arbitrary; here the
distinct values are enumerated deterministically). -/
def calculateMode (scores : List Int) : List Int :=
  if maxFreq scores = 1 then []
  else scores.dedup.filter (fun v => scores.count v == maxFreq scores)

/-! ## Data model and persistence collaborator -/

/-- A persisted score row: one per (Player, Game) pair, holding the
current `int64` value. -/
structure ScoreRecord where
  userID : Nat
  gameID : Nat
  value : Int
deriving DecidableEq

/-- Abstract state of the persistence collaborator: the existing game
ids, the users (id and username), and the score records. -/
structure DBState where
  games : List Nat
  users : List (Nat × String)
  scores : List ScoreRecord
deriving DecidableEq

/-- The `Score.Query().Where(user, game).Only()` lookup: the record for a
(Player, Game) pair.  Modelled from the spec: at most one record exists
per pair, so the first match is the record. -/
def findScore (db : DBState) (u g : Nat) : Option ScoreRecord :=
  db.scores.find? (fun r => r.userID == u && r.gameID == g)

/-- The `Score.Query().Where(game)` lookup: all score records of a game. -/
def scoresForGame (db : DBState) (g : Nat) : List ScoreRecord :=
  db.scores.filter (fun r => r.gameID == g)

/-- The eager-loaded `s.Edges.User.Username` of a score's owner. -/
def usernameOf (db : DBState) (u : Nat) : String :=
  match db.users.find? (fun p => p.1 == u) with
  | some p => p.2
  | none => ""

/-- One step of the descending insertion used to model the query's
`Order(ent.Desc(score.FieldValue))`. -/
def insertDesc (r : ScoreRecord) : List ScoreRecord → List ScoreRecord
  | [] => [r]
  | x :: xs => if x.value < r.value then r :: x :: xs else x :: insertDesc r xs

/-- Modelled from the spec: the database returns the rows "sorted by score
value descending; ties broken in implementation-defined (stable) order". -/
def sortDesc (l : List ScoreRecord) : List ScoreRecord :=
  l.foldr insertDesc []

/-! ## Handler operations (from the source file) -/

/-- Outcome of `JoinGame`: 201 with the new score value, 409 conflict, or
500 internal error (the failed create when the game does not exist). -/
inductive JoinOutcome where
  | created (score : Int)
  | conflict
  | internalError
deriving DecidableEq

/-- Handler `JoinGame` from the source: check for an existing record (409 on
conflict), then create a record.  Modelled from the spec for the create:
the new record holds value 0, and the create fails when the game does not
exist (surfaced by the handler as a 500 internal error). -/
def JoinGame (db : DBState) (u g : Nat) : JoinOutcome × DBState :=
  if db.scores.any (fun r => r.userID == u && r.gameID == g) then
    (.conflict, db)
  else if db.games.contains g then
    (.created 0, { db with scores := db.scores ++ [⟨u, g, 0⟩] })
  else (.internalError, db)

/-- Outcome of `UpdateGameScore`: 200 with the formatted stored value, 404
when no record exists, 400 on an unparsable score string, 406 when the
proposed score is below the stored one. -/
inductive UpdateOutcome where
  | ok (score : String)
  | scoreNotFound
  | invalidScoreFormat
  | notAcceptable
deriving DecidableEq

/-- Handler `UpdateGameScore` from the source: look up the record (404 if absent),
parse the proposed score string (400 if malformed), reject a proposal
below the stored value (406), otherwise persist the proposal and answer
with its decimal string. -/
def UpdateGameScore (db : DBState) (u g : Nat) (scoreStr : String) :
    UpdateOutcome × DBState :=
  match findScore db u g with
  | none => (.scoreNotFound, db)
  | some scoreToUpdate =>
    match parseInt64 scoreStr with
    | none => (.invalidScoreFormat, db)
    | some newScore =>
      if newScore < scoreToUpdate.value then (.notAcceptable, db)
      else
        (.ok (formatInt newScore),
          { db with
              scores :=
                db.scores.map (fun r =>
                  if r.userID == u && r.gameID == g then
                    { r with value := newScore }
                  else r) })

/-- One leaderboard entry: username and decimal-encoded score. -/
structure GameScoreResponse where
  username : String
  score : String
deriving DecidableEq

/-- Handler `ListGameScores` from the source: 404 (`none`) when the game does not
exist, otherwise the game's records sorted descending by value, each
rendered as username plus decimal string. -/
def ListGameScores (db : DBState) (g : Nat) : Option (List GameScoreResponse) :=
  if db.games.contains g then
    some ((sortDesc (scoresForGame db g)).map
      (fun r => ⟨usernameOf db r.userID, formatInt r.value⟩))
  else none

/-- The statistics payload: mean, median and modes as decimal strings. -/
structure GameStatisticsResponse where
  mean : String
  median : String
  mode : List String
deriving DecidableEq

/-- Handler `ListGameScoreStatistics` from the source: 404 (`none`) when the game
does not exist; otherwise collect the values (sorted descending by the
query), special-case the empty collection to `(0, 0, [0])` before any
formula runs, else apply the three helpers, and format everything as
decimal strings. -/
def ListGameScoreStatistics (db : DBState) (g : Nat) :
    Option GameStatisticsResponse :=
  if db.games.contains g then
    let scoresArray := (sortDesc (scoresForGame db g)).map (fun r => r.value)
    let stats : Int × Int × List Int :=
      if scoresArray.length = 0 then (0, 0, [0])
      else
        (calculateMean scoresArray, calculateMedian scoresArray,
          calculateMode scoresArray)
    some
      ⟨formatInt stats.1, formatInt stats.2.1, stats.2.2.map formatInt⟩
  else none

/-- A sequence of update requests `(userID, gameID, scoreString)` applied
in order through `UpdateGameScore`. -/
def applyUpdates (db : DBState) (reqs : List (Nat × Nat × String)) : DBState :=
  reqs.foldl (fun st req => (UpdateGameScore st req.1 req.2.1 req.2.2).2) db

/-! ## Spec-side definition for the median refinement claim -/

/-- Follows the spec's words for the median: "on a sequence sorted
ascending — for odd count, the middle element; for even count, the
integer-truncating average of the two middle elements" (exact integer
average, no wraparound). -/
def medianSpecAsc (asc : List Int) : Int :=
  let mid := asc.length / 2
  if asc.length % 2 = 0 then
    (asc.getD (mid - 1) 0 + asc.getD mid 0).tdiv 2
  else asc.getD mid 0

/-! ## Arithmetic helper lemmas -/

/-- Reduction `wrap64` preserves the residue modulo `2^64`. -/
theorem wrap64_emod (x : Int) : wrap64 x % 2 ^ 64 = x % 2 ^ 64 := by
  unfold wrap64
  omega

/-- Reduction `wrap64` lands in the `int64` window. -/
theorem wrap64_range (x : Int) : int64Lo ≤ wrap64 x ∧ wrap64 x ≤ int64Hi := by
  unfold wrap64 int64Lo int64Hi
  omega

/-- Reduction `wrap64` is the identity on values already in the `int64` window. -/
theorem wrap64_eq_self (x : Int) (h1 : int64Lo ≤ x) (h2 : x ≤ int64Hi) :
    wrap64 x = x := by
  unfold int64Lo at h1
  unfold int64Hi at h2
  unfold wrap64
  omega

/-- The wrapping fold of `goSum` agrees with the exact sum modulo `2^64`,
for any accumulator. -/
theorem foldl_wrap_emod (l : List Int) :
    ∀ a : Int,
      l.foldl (fun s v => wrap64 (s + v)) a % 2 ^ 64 = (a + l.sum) % 2 ^ 64 := by
  induction l with
  | nil => intro a; simp
  | cons x xs ih =>
    intro a
    have h1 := ih (wrap64 (a + x))
    have h2 : wrap64 (a + x) % 2 ^ 64 = (a + x) % 2 ^ 64 := wrap64_emod _
    simp only [List.foldl_cons, List.sum_cons]
    rw [h1]
    omega

/-- The wrapping fold of `goSum` stays in the `int64` window whenever the
accumulator starts there. -/
theorem foldl_wrap_range (l : List Int) :
    ∀ a : Int, int64Lo ≤ a → a ≤ int64Hi →
      int64Lo ≤ l.foldl (fun s v => wrap64 (s + v)) a ∧
        l.foldl (fun s v => wrap64 (s + v)) a ≤ int64Hi := by
  induction l with
  | nil => intro a h1 h2; exact ⟨h1, h2⟩
  | cons x xs ih =>
    intro a h1 h2
    simp only [List.foldl_cons]
    exact ih _ (wrap64_range _).1 (wrap64_range _).2

/-- Sum `goSum` equals the exact sum whenever the exact sum fits in `int64`. -/
theorem goSum_eq_sum (l : List Int) (hlo : int64Lo ≤ l.sum)
    (hhi : l.sum ≤ int64Hi) : goSum l = l.sum := by
  have h1 : goSum l % 2 ^ 64 = (0 + l.sum) % 2 ^ 64 := foldl_wrap_emod l 0
  have h2 := foldl_wrap_range l 0 (by unfold int64Lo; omega)
    (by unfold int64Hi; omega)
  unfold goSum at h1 h2 ⊢
  unfold int64Lo at h2 hlo
  unfold int64Hi at h2 hhi
  omega

/-! ## List helper lemmas -/

/-- Predicate check `any` answers whether `find?` succeeds. -/
theorem any_eq_find?_isSome {α : Type} (p : α → Bool) (l : List α) :
    l.any p = (l.find? p).isSome := by
  induction l with
  | nil => rfl
  | cons x xs ih =>
    by_cases h : p x = true
    · simp [List.find?_cons_of_pos _ h, h]
    · simp only [List.any_cons, List.find?_cons_of_neg _ h, ih,
        Bool.eq_false_iff.mpr h, Bool.false_or]

/-- Lookup `find?` commutes with a map that does not change the predicate's
verdict on any element. -/
theorem find?_map_of_invariant {α : Type} (f : α → α) (p : α → Bool)
    (hp : ∀ a, p (f a) = p a) (l : List α) :
    (l.map f).find? p = (l.find? p).map f := by
  induction l with
  | nil => rfl
  | cons x xs ih =>
    by_cases h : p x = true
    · rw [List.map_cons, List.find?_cons_of_pos _ (by rw [hp]; exact h),
        List.find?_cons_of_pos _ h, Option.map_some']
    · rw [List.map_cons, List.find?_cons_of_neg _ (by rw [hp]; exact h),
        List.find?_cons_of_neg _ h, ih]

/-- The record rewrite performed by `UpdateGameScore` never changes a
record's (user, game) identity, so lookups commute with it. -/
theorem setValue_pred_invariant (u g u2 g2 : Nat) (v : Int) :
    ∀ r : ScoreRecord,
      ((if r.userID == u && r.gameID == g then { r with value := v }
        else r).userID == u2 &&
        (if r.userID == u && r.gameID == g then { r with value := v }
          else r).gameID == g2) =
      (r.userID == u2 && r.gameID == g2) := by
  intro r
  by_cases h : (r.userID == u && r.gameID == g) = true
  · rw [if_pos h]
  · rw [if_neg h]

/-! ## Insertion-sort helper lemmas -/

/-- Inserting is a permutation of consing. -/
theorem insertDesc_perm (r : ScoreRecord) (l : List ScoreRecord) :
    (insertDesc r l).Perm (r :: l) := by
  induction l with
  | nil => exact List.Perm.refl _
  | cons x xs ih =>
    unfold insertDesc
    by_cases h : x.value < r.value
    · rw [if_pos h]
    · rw [if_neg h]
      exact (ih.cons x).trans (List.Perm.swap r x xs)

/-- Sorting `sortDesc` permutes its input. -/
theorem sortDesc_perm (l : List ScoreRecord) : (sortDesc l).Perm l := by
  induction l with
  | nil => exact List.Perm.refl _
  | cons x xs ih =>
    exact (insertDesc_perm x (sortDesc xs)).trans (ih.cons x)

/-- Inserting preserves the non-increasing-by-value ordering. -/
theorem insertDesc_pairwise (r : ScoreRecord) (l : List ScoreRecord)
    (h : l.Pairwise (fun a b => b.value ≤ a.value)) :
    (insertDesc r l).Pairwise (fun a b => b.value ≤ a.value) := by
  induction l with
  | nil => simp [insertDesc]
  | cons x xs ih =>
    rw [List.pairwise_cons] at h
    obtain ⟨hx, hxs⟩ := h
    unfold insertDesc
    by_cases hlt : x.value < r.value
    · rw [if_pos hlt, List.pairwise_cons]
      refine ⟨?_, List.pairwise_cons.mpr ⟨hx, hxs⟩⟩
      intro a ha
      rcases List.mem_cons.mp ha with rfl | ha
      · exact le_of_lt hlt
      · exact le_trans (hx a ha) (le_of_lt hlt)
    · rw [if_neg hlt, List.pairwise_cons]
      refine ⟨?_, ih hxs⟩
      intro a ha
      rcases List.mem_cons.mp ((insertDesc_perm r xs).mem_iff.mp ha) with rfl | ha2
      · exact not_lt.mp hlt
      · exact hx a ha2

/-- Sorting `sortDesc` output is non-increasing by value. -/
theorem sortDesc_pairwise (l : List ScoreRecord) :
    (sortDesc l).Pairwise (fun a b => b.value ≤ a.value) := by
  induction l with
  | nil => simp [sortDesc]
  | cons x xs ih => exact insertDesc_pairwise x (sortDesc xs) ih

/-! ## Characterization of the update handler branches -/

/-- No record for the pair: 404, state unchanged. -/
theorem updateGameScore_notFound (db : DBState) (u g : Nat) (s : String)
    (h : findScore db u g = none) :
    UpdateGameScore db u g s = (.scoreNotFound, db) := by
  simp only [UpdateGameScore, h]

/-- Record exists but the score string does not parse: 400, state
unchanged. -/
theorem updateGameScore_badParse (db : DBState) (u g : Nat) (s : String)
    (r : ScoreRecord) (h1 : findScore db u g = some r)
    (h2 : parseInt64 s = none) :
    UpdateGameScore db u g s = (.invalidScoreFormat, db) := by
  simp only [UpdateGameScore, h1, h2]

/-- Proposed score below the stored value: 406, state unchanged. -/
theorem updateGameScore_reject (db : DBState) (u g : Nat) (s : String)
    (r : ScoreRecord) (p : Int) (h1 : findScore db u g = some r)
    (h2 : parseInt64 s = some p) (h3 : p < r.value) :
    UpdateGameScore db u g s = (.notAcceptable, db) := by
  simp only [UpdateGameScore, h1, h2, if_pos h3]

/-- Proposed score at or above the stored value: 200 with the formatted
proposal, and the pair's record is rewritten to the proposal. -/
theorem updateGameScore_accept (db : DBState) (u g : Nat) (s : String)
    (r : ScoreRecord) (p : Int) (h1 : findScore db u g = some r)
    (h2 : parseInt64 s = some p) (h3 : ¬p < r.value) :
    UpdateGameScore db u g s =
      (.ok (formatInt p),
        { db with
            scores :=
              db.scores.map (fun x =>
                if x.userID == u && x.gameID == g then { x with value := p }
                else x) }) := by
  simp only [UpdateGameScore, h1, h2, if_neg h3]

/-! ## C2: statistics of the empty collection -/

/-- C2: for an existing game with an empty score collection, the
statistics operation returns exactly mean "0", median "0" and mode ["0"],
through the explicit empty special case. -/
theorem c2_empty_statistics (db : DBState) (g : Nat)
    (hg : db.games.contains g = true)
    (hempty : scoresForGame db g = []) :
    ListGameScoreStatistics db g = some ⟨"0", "0", ["0"]⟩ := by
  simp only [ListGameScoreStatistics, hg, hempty, if_true]
  rfl

/-- Witness for C2 at a concrete state: one game, no scores. -/
theorem c2_empty_statistics_witness :
    ListGameScoreStatistics ⟨[7], [], []⟩ 7 = some ⟨"0", "0", ["0"]⟩ :=
  c2_empty_statistics ⟨[7], [], []⟩ 7 rfl rfl

/-! ## C3: mode as the set of most frequent values -/

/-- Every element's count is bounded by `maxFreq`. -/
theorem count_le_maxFreq (scores : List Int) (v : Int) (hv : v ∈ scores) :
    scores.count v ≤ maxFreq scores := by
  unfold maxFreq
  have hmem : scores.count v ∈ scores.map (fun x => scores.count x) :=
    List.mem_map.mpr ⟨v, hv, rfl⟩
  generalize scores.map (fun x => scores.count x) = l at hmem
  induction l with
  | nil => cases hmem
  | cons x xs ih =>
    rcases List.mem_cons.mp hmem with rfl | h
    · exact le_max_left _ _
    · exact le_trans (ih h) (le_max_right _ _)

/-- On a duplicate-free non-empty list the maximum frequency is 1. -/
theorem maxFreq_of_nodup (scores : List Int) (hne : scores ≠ [])
    (hnd : scores.Nodup) : maxFreq scores = 1 := by
  obtain ⟨x, xs, rfl⟩ := List.exists_cons_of_ne_nil hne
  have hx : (x :: xs).count x = 1 :=
    List.count_eq_one_of_mem hnd (List.mem_cons_self x xs)
  refine le_antisymm ?_ ?_
  · unfold maxFreq
    have hall : ∀ c ∈ (x :: xs).map (fun v => (x :: xs).count v), c ≤ 1 := by
      intro c hc
      obtain ⟨v, hv, rfl⟩ := List.mem_map.mp hc
      exact List.nodup_iff_count_le_one.mp hnd v
    generalize (x :: xs).map (fun v => (x :: xs).count v) = l at hall
    induction l with
    | nil => exact Nat.zero_le 1
    | cons c cs ih =>
      simp only [List.foldr_cons]
      exact max_le (hall c (List.mem_cons_self c cs))
        (ih fun d hd => hall d (List.mem_cons_of_mem c hd))
  · calc 1 = (x :: xs).count x := hx.symm
      _ ≤ maxFreq (x :: xs) := count_le_maxFreq _ x (List.mem_cons_self x xs)

/-- A list with a duplicate has maximum frequency at least 2. -/
theorem maxFreq_of_not_nodup (scores : List Int) (hnd : ¬scores.Nodup) :
    2 ≤ maxFreq scores := by
  obtain ⟨v, hdup⟩ := List.exists_duplicate_iff_not_nodup.mpr hnd
  have h2 : 2 ≤ scores.count v := List.duplicate_iff_two_le_count.mp hdup
  exact le_trans h2 (count_le_maxFreq _ v hdup.mem)

/-- C3: for non-empty inputs, `calculateMode` is empty exactly on
duplicate-free input, and otherwise is, as a set, the values attaining the
maximum frequency; in particular the mode of `[5,5,3,3,3]` is `{3}` and
the mode of `[1,1,2,2]` is `{1,2}`. -/
theorem c3_mode_correct :
    (∀ scores : List Int, scores ≠ [] → scores.Nodup →
      calculateMode scores = []) ∧
    (∀ (scores : List Int) (v : Int), ¬scores.Nodup →
      (v ∈ calculateMode scores ↔
        v ∈ scores ∧ scores.count v = maxFreq scores)) ∧
    calculateMode [5, 5, 3, 3, 3] = [3] ∧
    (∀ v : Int, v ∈ calculateMode [1, 1, 2, 2] ↔ v = 1 ∨ v = 2) := by
  refine ⟨?_, ?_, by decide, ?_⟩
  · intro scores hne hnd
    unfold calculateMode
    rw [if_pos (maxFreq_of_nodup scores hne hnd)]
  · intro scores v hnd
    have h2 := maxFreq_of_not_nodup scores hnd
    unfold calculateMode
    rw [if_neg (by omega)]
    constructor
    · intro h
      obtain ⟨hmem, hcount⟩ := List.mem_filter.mp h
      exact ⟨List.mem_dedup.mp hmem, beq_iff_eq.mp hcount⟩
    · intro ⟨hmem, hcount⟩
      exact List.mem_filter.mpr
        ⟨List.mem_dedup.mpr hmem, by rw [hcount]; exact beq_iff_eq.mpr rfl⟩
  · have he : calculateMode [1, 1, 2, 2] = [1, 2] := by decide
    intro v
    rw [he]
    constructor
    · intro h
      rcases List.mem_cons.mp h with rfl | h
      · exact Or.inl rfl
      · rcases List.mem_cons.mp h with rfl | h
        · exact Or.inr rfl
        · cases h
    · rintro (rfl | rfl)
      · exact List.mem_cons_self _ _
      · exact List.mem_cons_of_mem _ (List.mem_cons_self _ _)

/-- Witness for C3 at concrete inputs: all-unique list `[1,2,3]` has empty
mode, and in `[1,1,2]` the value 1 is a mode because it attains the
maximum frequency. -/
theorem c3_mode_correct_witness :
    calculateMode [1, 2, 3] = [] ∧
    ((1 : Int) ∈ calculateMode [1, 1, 2] ↔
      (1 : Int) ∈ ([1, 1, 2] : List Int) ∧
        ([1, 1, 2] : List Int).count 1 = maxFreq [1, 1, 2]) :=
  ⟨c3_mode_correct.1 [1, 2, 3] (by decide) (by decide),
    c3_mode_correct.2.1 [1, 1, 2] 1 (by decide)⟩

/-! ## C5: the mean -/

/-- C5 (amended): for every non-empty score sequence whose exact sum fits
in `int64`, `calculateMean` is the mathematical sum divided by the count
with truncating integer division. -/
theorem c5_mean_is_truncated_average (scores : List Int) (hne : scores ≠ [])
    (hlo : int64Lo ≤ scores.sum) (hhi : scores.sum ≤ int64Hi) :
    calculateMean scores = scores.sum.tdiv (scores.length : Int) := by
  unfold calculateMean
  rw [goSum_eq_sum scores hlo hhi]

/-- Witness for C5 at a concrete input. -/
theorem c5_mean_is_truncated_average_witness :
    calculateMean [3, 4] = ([3, 4] : List Int).sum.tdiv (([3, 4] : List Int).length : Int) :=
  c5_mean_is_truncated_average [3, 4] (by decide) (by decide) (by decide)

/-- C5 counterexample: the Go `int64` sum wraps around, so for two maximal
scores the computed mean is `-1`, not the truncated mathematical average
`2^63 - 1`. -/
theorem c5_mean_counterexample :
    calculateMean [9223372036854775807, 9223372036854775807] = -1 ∧
    ([9223372036854775807, 9223372036854775807] : List Int).sum.tdiv
        (([9223372036854775807, 9223372036854775807] : List Int).length : Int) =
      9223372036854775807 ∧
    calculateMean [9223372036854775807, 9223372036854775807] ≠
      ([9223372036854775807, 9223372036854775807] : List Int).sum.tdiv
        (([9223372036854775807, 9223372036854775807] : List Int).length : Int) := by
  refine ⟨by decide, by decide, ?_⟩
  intro h
  rw [show calculateMean [9223372036854775807, 9223372036854775807] = -1 from by decide] at h
  rw [show ([9223372036854775807, 9223372036854775807] : List Int).sum.tdiv
      (([9223372036854775807, 9223372036854775807] : List Int).length : Int) =
      9223372036854775807 from by decide] at h
  cases h

/-! ## C6: the median on the descending input -/

/-- Reading `getD` on a reversed list reads from the mirrored position. -/
theorem getD_reverse (l : List Int) (k : Nat) (hk : k < l.length) :
    l.reverse.getD k 0 = l.getD (l.length - 1 - k) 0 := by
  rw [List.getD_eq_getElem?_getD, List.getD_eq_getElem?_getD,
    List.getElem?_reverse hk]

/-- C6 (amended): for every non-empty sequence whose two middle elements
(for even counts) have an exact sum in the `int64` range, the median
computed on the descending-sorted sequence equals the spec's
ascending-order definition. -/
theorem c6_median_matches_spec (l : List Int) (hne : l ≠ [])
    (hrange : l.length % 2 = 0 →
      int64Lo ≤ l.getD (l.length / 2 - 1) 0 + l.getD (l.length / 2) 0 ∧
        l.getD (l.length / 2 - 1) 0 + l.getD (l.length / 2) 0 ≤ int64Hi) :
    calculateMedian l = medianSpecAsc l.reverse := by
  have hn : l.length ≠ 0 := fun h => hne (List.eq_nil_of_length_eq_zero h)
  unfold calculateMedian medianSpecAsc
  simp only [List.length_reverse]
  by_cases he : l.length % 2 = 0
  · rw [if_pos he, if_pos he,
      getD_reverse _ _ (by omega : l.length / 2 - 1 < l.length),
      getD_reverse _ _ (by omega : l.length / 2 < l.length),
      (by omega : l.length - 1 - (l.length / 2 - 1) = l.length / 2),
      (by omega : l.length - 1 - l.length / 2 = l.length / 2 - 1),
      wrap64_eq_self _ (hrange he).1 (hrange he).2, Int.add_comm]
  · rw [if_neg he, if_neg he,
      getD_reverse _ _ (by omega : l.length / 2 < l.length),
      (by omega : l.length - 1 - l.length / 2 = l.length / 2)]

/-- Witness for C6 at a concrete descending input. -/
theorem c6_median_matches_spec_witness :
    calculateMedian [5, 4, 3, 2] = medianSpecAsc ([5, 4, 3, 2] : List Int).reverse :=
  c6_median_matches_spec [5, 4, 3, 2] (by decide) (by decide)

/-- C6 counterexample: for the even-length descending sequence of two
maximal scores, the Go addition of the two middle elements wraps, giving
`-1` instead of the spec's `2^63 - 1`. -/
theorem c6_median_counterexample :
    calculateMedian [9223372036854775807, 9223372036854775807] = -1 ∧
    medianSpecAsc ([9223372036854775807, 9223372036854775807] : List Int).reverse =
      9223372036854775807 ∧
    calculateMedian [9223372036854775807, 9223372036854775807] ≠
      medianSpecAsc ([9223372036854775807, 9223372036854775807] : List Int).reverse := by
  refine ⟨by decide, by decide, ?_⟩
  intro h
  rw [show calculateMedian [9223372036854775807, 9223372036854775807] = -1 from by decide,
    show medianSpecAsc ([9223372036854775807, 9223372036854775807] : List Int).reverse =
      9223372036854775807 from by decide] at h
  cases h

/-! ## C10: order of the record check and the score parse -/

/-- C10: when no record exists for the pair the update answers 404 no
matter what the submitted score string is, and the invalid-score-format
400 can only arise when a record exists (with an unparsable string). -/
theorem c10_lookup_before_parse (db : DBState) (u g : Nat) (s : String) :
    (findScore db u g = none →
      UpdateGameScore db u g s = (.scoreNotFound, db)) ∧
    ((UpdateGameScore db u g s).1 = .invalidScoreFormat →
      (∃ r, findScore db u g = some r) ∧ parseInt64 s = none) := by
  constructor
  · exact updateGameScore_notFound db u g s
  · intro h
    cases hf : findScore db u g with
    | none =>
      rw [updateGameScore_notFound db u g s hf] at h
      cases h
    | some r =>
      cases hp : parseInt64 s with
      | none => exact ⟨⟨r, rfl⟩, rfl⟩
      | some p =>
        by_cases hlt : p < r.value
        · rw [updateGameScore_reject db u g s r p hf hp hlt] at h
          cases h
        · rw [updateGameScore_accept db u g s r p hf hp hlt] at h
          cases h

/-- Witness for C10: a player who never joined gets 404 even for a
non-numeric score string, at a concrete state. -/
theorem c10_lookup_before_parse_witness :
    UpdateGameScore ⟨[7], [], []⟩ 1 7 "not-a-number" =
      (.scoreNotFound, ⟨[7], [], []⟩) :=
  (c10_lookup_before_parse ⟨[7], [], []⟩ 1 7 "not-a-number").1 rfl

/-! ## C1: the update contract -/

/-- C1: with an existing record and a well-formed proposed score, the
update accepts exactly when the proposal is at least the stored value
(equal accepted), persists it and answers its decimal string; a smaller
proposal is rejected with 406 and the state is unchanged. -/
theorem c1_update_contract (db : DBState) (u g : Nat) (s : String) (p : Int)
    (r : ScoreRecord) (hfind : findScore db u g = some r)
    (hparse : parseInt64 s = some p) :
    (r.value ≤ p →
      (UpdateGameScore db u g s).1 = .ok (formatInt p) ∧
      ∃ r2, findScore (UpdateGameScore db u g s).2 u g = some r2 ∧
        r2.value = p) ∧
    (p < r.value → UpdateGameScore db u g s = (.notAcceptable, db)) := by
  constructor
  · intro hle
    rw [updateGameScore_accept db u g s r p hfind hparse (not_lt.mpr hle)]
    refine ⟨rfl, { r with value := p }, ?_, rfl⟩
    show (db.scores.map fun x =>
        if x.userID == u && x.gameID == g then { x with value := p }
        else x).find? (fun x => x.userID == u && x.gameID == g) = _
    rw [find?_map_of_invariant _ _ (setValue_pred_invariant u g u g p)]
    unfold findScore at hfind
    rw [hfind, Option.map_some', if_pos (List.find?_some hfind)]
  · exact updateGameScore_reject db u g s r p hfind hparse

/-- Witness for C1 at concrete states: an equal proposal is accepted, a
larger one is accepted, a smaller one is rejected. -/
theorem c1_update_contract_witness :
    ((UpdateGameScore ⟨[7], [], [⟨1, 7, 10⟩]⟩ 1 7 "10").1 = .ok (formatInt 10) ∧
      ∃ r2, findScore (UpdateGameScore ⟨[7], [], [⟨1, 7, 10⟩]⟩ 1 7 "10").2 1 7 =
        some r2 ∧ r2.value = 10) ∧
    ((UpdateGameScore ⟨[7], [], [⟨1, 7, 10⟩]⟩ 1 7 "11").1 = .ok (formatInt 11) ∧
      ∃ r2, findScore (UpdateGameScore ⟨[7], [], [⟨1, 7, 10⟩]⟩ 1 7 "11").2 1 7 =
        some r2 ∧ r2.value = 11) ∧
    UpdateGameScore ⟨[7], [], [⟨1, 7, 10⟩]⟩ 1 7 "9" =
      (.notAcceptable, ⟨[7], [], [⟨1, 7, 10⟩]⟩) :=
  ⟨(c1_update_contract ⟨[7], [], [⟨1, 7, 10⟩]⟩ 1 7 "10" 10 ⟨1, 7, 10⟩ rfl rfl).1
      (by decide),
    (c1_update_contract ⟨[7], [], [⟨1, 7, 10⟩]⟩ 1 7 "11" 11 ⟨1, 7, 10⟩ rfl rfl).1
      (by decide),
    (c1_update_contract ⟨[7], [], [⟨1, 7, 10⟩]⟩ 1 7 "9" 9 ⟨1, 7, 10⟩ rfl rfl).2
      (by decide)⟩

/-! ## C4: joining a game -/

/-- C4 (amended): joining creates exactly one record with value 0 and
answers score 0 when the game exists and the pair has no record; a second
join conflicts (409) and leaves the state unchanged; when the game does
not exist the operation fails with the internal-error outcome of the
failed create (500), not a 404. -/
theorem c4_join_game (db : DBState) (u g : Nat) :
    (findScore db u g = none → db.games.contains g = true →
      JoinGame db u g =
        (.created 0, { db with scores := db.scores ++ [⟨u, g, 0⟩] }) ∧
      findScore (JoinGame db u g).2 u g = some ⟨u, g, 0⟩) ∧
    (∀ r, findScore db u g = some r →
      JoinGame db u g = (.conflict, db) ∧
      findScore (JoinGame db u g).2 u g = some r) ∧
    (findScore db u g = none → db.games.contains g = false →
      JoinGame db u g = (.internalError, db)) := by
  refine ⟨?_, ?_, ?_⟩
  · intro hnone hg
    have hany : db.scores.any (fun r => r.userID == u && r.gameID == g) = false := by
      rw [any_eq_find?_isSome]
      unfold findScore at hnone
      rw [hnone]
      rfl
    have hjoin : JoinGame db u g =
        (.created 0, { db with scores := db.scores ++ [⟨u, g, 0⟩] }) := by
      unfold JoinGame
      rw [hany, hg]
      rfl
    refine ⟨hjoin, ?_⟩
    rw [hjoin]
    show (db.scores ++ [(⟨u, g, 0⟩ : ScoreRecord)]).find?
        (fun x => x.userID == u && x.gameID == g) = _
    rw [List.find?_append]
    unfold findScore at hnone
    rw [hnone]
    rw [Option.none_or, List.find?_cons_of_pos _ (by simp)]
  · intro r hr
    have hany : db.scores.any (fun x => x.userID == u && x.gameID == g) = true := by
      rw [any_eq_find?_isSome]
      unfold findScore at hr
      rw [hr]
      rfl
    have hjoin : JoinGame db u g = (.conflict, db) := by
      unfold JoinGame
      rw [hany]
      rfl
    exact ⟨hjoin, by rw [hjoin]; exact hr⟩
  · intro hnone hg
    have hany : db.scores.any (fun r => r.userID == u && r.gameID == g) = false := by
      rw [any_eq_find?_isSome]
      unfold findScore at hnone
      rw [hnone]
      rfl
    unfold JoinGame
    rw [hany, hg]
    rfl

/-- Witness for C4 at concrete states: a fresh join creates the record, a
second join conflicts, and joining a non-existent game is an internal
error. -/
theorem c4_join_game_witness :
    (JoinGame ⟨[7], [], []⟩ 1 7 =
        (.created 0, ⟨[7], [], [⟨1, 7, 0⟩]⟩) ∧
      findScore (JoinGame ⟨[7], [], []⟩ 1 7).2 1 7 = some ⟨1, 7, 0⟩) ∧
    (JoinGame ⟨[7], [], [⟨1, 7, 0⟩]⟩ 1 7 = (.conflict, ⟨[7], [], [⟨1, 7, 0⟩]⟩) ∧
      findScore (JoinGame ⟨[7], [], [⟨1, 7, 0⟩]⟩ 1 7).2 1 7 = some ⟨1, 7, 0⟩) ∧
    JoinGame ⟨[9], [], []⟩ 1 7 = (.internalError, ⟨[9], [], []⟩) :=
  ⟨(c4_join_game ⟨[7], [], []⟩ 1 7).1 rfl rfl,
    (c4_join_game ⟨[7], [], [⟨1, 7, 0⟩]⟩ 1 7).2.1 ⟨1, 7, 0⟩ rfl,
    (c4_join_game ⟨[9], [], []⟩ 1 7).2.2 rfl rfl⟩

/-- C4 counterexample: at a concrete state whose game list is empty, the
join operation yields the 500 internal-error outcome of the failed
create, not a not-found rejection; there is no 404 path in the handler. -/
theorem c4_join_game_counterexample :
    JoinGame ⟨[], [], []⟩ 1 7 = (.internalError, ⟨[], [], []⟩) ∧
    (JoinGame ⟨[], [], []⟩ 1 7).1 ≠ .conflict ∧
    ∀ v : Int, (JoinGame ⟨[], [], []⟩ 1 7).1 ≠ .created v := by
  refine ⟨by decide, by decide, ?_⟩
  intro v h
  rw [show (JoinGame ⟨[], [], []⟩ 1 7).1 = .internalError from by decide] at h
  cases h

/-! ## C7: monotonic stored values -/

/-- Helper: any looked-up record survives one update step (whatever its
outcome) with a value at least as large. -/
theorem update_step_mono (db : DBState) (u g : Nat) (s : String)
    (u2 g2 : Nat) (r : ScoreRecord) (h : findScore db u2 g2 = some r) :
    ∃ r2, findScore (UpdateGameScore db u g s).2 u2 g2 = some r2 ∧
      r.value ≤ r2.value := by
  cases hf : findScore db u g with
  | none =>
    rw [updateGameScore_notFound db u g s hf]
    exact ⟨r, h, le_refl _⟩
  | some cur =>
    cases hp : parseInt64 s with
    | none =>
      rw [updateGameScore_badParse db u g s cur hf hp]
      exact ⟨r, h, le_refl _⟩
    | some p =>
      by_cases hlt : p < cur.value
      · rw [updateGameScore_reject db u g s cur p hf hp hlt]
        exact ⟨r, h, le_refl _⟩
      · rw [updateGameScore_accept db u g s cur p hf hp hlt]
        refine ⟨if r.userID == u && r.gameID == g then { r with value := p }
          else r, ?_, ?_⟩
        · show (db.scores.map (fun x =>
              if x.userID == u && x.gameID == g then { x with value := p }
              else x)).find? (fun x => x.userID == u2 && x.gameID == g2) = _
          rw [find?_map_of_invariant _ _ (setValue_pred_invariant u g u2 g2 p),
            show db.scores.find? (fun x => x.userID == u2 && x.gameID == g2) =
              some r from h, Option.map_some']
        · by_cases hr : (r.userID == u && r.gameID == g) = true
          · rw [if_pos hr]
            show r.value ≤ p
            have harg : db.scores.find?
                (fun x => x.userID == u2 && x.gameID == g2) = some r := h
            have hp2beta := List.find?_some harg
            have hp2 : (r.userID == u2 && r.gameID == g2) = true := hp2beta
            rw [Bool.and_eq_true] at hr hp2
            have hu : u2 = u := (beq_iff_eq.mp hp2.1).symm.trans (beq_iff_eq.mp hr.1)
            have hgg : g2 = g := (beq_iff_eq.mp hp2.2).symm.trans (beq_iff_eq.mp hr.2)
            rw [hu, hgg, hf] at h
            have : cur = r := Option.some.inj h
            rw [← this]
            exact not_lt.mp hlt
          · rw [if_neg hr]

/-- C7: every looked-up record survives a single update step with a value
at least as large, and along any finite trace of update requests the
stored value of each (Player, Game) record never decreases. -/
theorem c7_value_monotonic :
    (∀ (db : DBState) (u g : Nat) (s : String) (u2 g2 : Nat) (r : ScoreRecord),
      findScore db u2 g2 = some r →
      ∃ r2, findScore (UpdateGameScore db u g s).2 u2 g2 = some r2 ∧
        r.value ≤ r2.value) ∧
    (∀ (reqs : List (Nat × Nat × String)) (db : DBState) (u2 g2 : Nat)
        (r : ScoreRecord),
      findScore db u2 g2 = some r →
      ∃ r2, findScore (applyUpdates db reqs) u2 g2 = some r2 ∧
        r.value ≤ r2.value) := by
  refine ⟨update_step_mono, ?_⟩
  intro reqs
  induction reqs with
  | nil =>
    intro db u2 g2 r h
    exact ⟨r, h, le_refl _⟩
  | cons req rest ih =>
    intro db u2 g2 r h
    obtain ⟨r1, h1, hv1⟩ := update_step_mono db req.1 req.2.1 req.2.2 u2 g2 r h
    obtain ⟨r2, h2, hv2⟩ := ih _ _ _ _ h1
    exact ⟨r2, h2, le_trans hv1 hv2⟩

/-- Witness for C7 at a concrete trace of two updates. -/
theorem c7_value_monotonic_witness :
    ∃ r2, findScore
        (applyUpdates ⟨[7], [], [⟨1, 7, 2⟩]⟩ [(1, 7, "5"), (1, 7, "3")]) 1 7 =
        some r2 ∧ (⟨1, 7, 2⟩ : ScoreRecord).value ≤ r2.value :=
  c7_value_monotonic.2 [(1, 7, "5"), (1, 7, "3")] ⟨[7], [], [⟨1, 7, 2⟩]⟩ 1 7
    ⟨1, 7, 2⟩ rfl

/-! ## C8: the leaderboard -/

/-- C8: for an existing game the leaderboard is the game's records in an
order that is non-increasing by score value (so every strictly greater
score precedes every smaller one, ties in implementation-defined order),
each rendered as the owner's username with the decimal-encoded value. -/
theorem c8_leaderboard_sorted (db : DBState) (g : Nat)
    (hg : db.games.contains g = true) :
    ∃ recs : List ScoreRecord,
      ListGameScores db g =
        some (recs.map
          (fun r => ⟨usernameOf db r.userID, formatInt r.value⟩)) ∧
      recs.Perm (scoresForGame db g) ∧
      recs.Pairwise (fun a b => b.value ≤ a.value) := by
  refine ⟨sortDesc (scoresForGame db g), ?_, sortDesc_perm _, sortDesc_pairwise _⟩
  unfold ListGameScores
  rw [hg, if_pos rfl]

/-- Witness for C8 at a concrete state with a tie. -/
theorem c8_leaderboard_sorted_witness :
    ∃ recs : List ScoreRecord,
      ListGameScores
          ⟨[7], [(1, "A"), (2, "B"), (3, "C")],
            [⟨1, 7, 50⟩, ⟨2, 7, 80⟩, ⟨3, 7, 80⟩]⟩ 7 =
        some (recs.map
          (fun r =>
            ⟨usernameOf
                ⟨[7], [(1, "A"), (2, "B"), (3, "C")],
                  [⟨1, 7, 50⟩, ⟨2, 7, 80⟩, ⟨3, 7, 80⟩]⟩ r.userID,
              formatInt r.value⟩)) ∧
      recs.Perm (scoresForGame
        ⟨[7], [(1, "A"), (2, "B"), (3, "C")],
          [⟨1, 7, 50⟩, ⟨2, 7, 80⟩, ⟨3, 7, 80⟩]⟩ 7) ∧
      recs.Pairwise (fun a b => b.value ≤ a.value) :=
  c8_leaderboard_sorted
    ⟨[7], [(1, "A"), (2, "B"), (3, "C")],
      [⟨1, 7, 50⟩, ⟨2, 7, 80⟩, ⟨3, 7, 80⟩]⟩ 7 rfl

/-! ## C9: decimal round-trip -/

/-- Helper: a record of an existing game appears on the leaderboard with
its decimal-rendered value. -/
theorem listGameScores_mem (db : DBState) (g : Nat)
    (hg : db.games.contains g = true) (r : ScoreRecord)
    (hr : r ∈ db.scores) (hrg : r.gameID = g) :
    ∃ out, ListGameScores db g = some out ∧
      (⟨usernameOf db r.userID, formatInt r.value⟩ : GameScoreResponse) ∈ out := by
  refine ⟨(sortDesc (scoresForGame db g)).map
      (fun x => ⟨usernameOf db x.userID, formatInt x.value⟩), ?_, ?_⟩
  · unfold ListGameScores
    rw [hg, if_pos rfl]
  · exact List.mem_map_of_mem _
      ((sortDesc_perm _).mem_iff.mpr
        (List.mem_filter.mpr ⟨hr, beq_iff_eq.mpr hrg⟩))

/-- C9 (amended): a score submitted as the canonical decimal string of its
value and accepted by the update reads back identically: the update
response carries the same string, and the stored record appears on the
leaderboard with the same string. -/
theorem c9_canonical_roundtrip (db : DBState) (u g : Nat) (s : String)
    (p : Int) (r : ScoreRecord)
    (hfind : findScore db u g = some r)
    (hparse : parseInt64 s = some p)
    (hcanon : formatInt p = s)
    (hacc : r.value ≤ p)
    (hg : db.games.contains g = true) :
    (UpdateGameScore db u g s).1 = .ok s ∧
    ∃ out, ListGameScores (UpdateGameScore db u g s).2 g = some out ∧
      ∃ e ∈ out, e.score = s := by
  have hupd := updateGameScore_accept db u g s r p hfind hparse (not_lt.mpr hacc)
  rw [hupd]
  have harg : db.scores.find? (fun x => x.userID == u && x.gameID == g) =
      some r := hfind
  have hpredbeta := List.find?_some harg
  have hpred : (r.userID == u && r.gameID == g) = true := hpredbeta
  have hrg : r.gameID = g := by
    rw [Bool.and_eq_true] at hpred
    exact beq_iff_eq.mp hpred.2
  have hr2 : ({ r with value := p } : ScoreRecord) ∈
      db.scores.map (fun x =>
        if x.userID == u && x.gameID == g then { x with value := p } else x) :=
    List.mem_map.mpr
      ⟨r,
        List.mem_of_find?_eq_some harg,
        by rw [if_pos hpred]⟩
  obtain ⟨out, hout, hmem⟩ :=
    listGameScores_mem
      { db with
          scores :=
            db.scores.map (fun x =>
              if x.userID == u && x.gameID == g then { x with value := p }
              else x) }
      g hg { r with value := p } hr2 hrg
  refine ⟨by rw [hcanon], out, hout, ⟨_, hmem, ?_⟩⟩
  show formatInt p = s
  exact hcanon

/-- Witness for C9 at a concrete state: submitting "5" reads back "5". -/
theorem c9_canonical_roundtrip_witness :
    (UpdateGameScore ⟨[7], [(1, "alice")], [⟨1, 7, 0⟩]⟩ 1 7 "5").1 = .ok "5" ∧
    ∃ out, ListGameScores
        (UpdateGameScore ⟨[7], [(1, "alice")], [⟨1, 7, 0⟩]⟩ 1 7 "5").2 7 =
        some out ∧ ∃ e ∈ out, e.score = "5" :=
  c9_canonical_roundtrip ⟨[7], [(1, "alice")], [⟨1, 7, 0⟩]⟩ 1 7 "5" 5 ⟨1, 7, 0⟩
    rfl rfl rfl (by decide) rfl

/-- C9 counterexample: the accepted well-formed decimal string "00" reads
back as "0": the stored value round-trips, the submitted string does not. -/
theorem c9_roundtrip_counterexample :
    parseInt64 "00" = some 0 ∧
    (UpdateGameScore ⟨[7], [(1, "alice")], [⟨1, 7, 0⟩]⟩ 1 7 "00").1 = .ok "0" ∧
    ListGameScores
        (UpdateGameScore ⟨[7], [(1, "alice")], [⟨1, 7, 0⟩]⟩ 1 7 "00").2 7 =
      some [⟨"alice", "0"⟩] ∧
    "0" ≠ "00" := by
  refine ⟨by decide, by decide, by decide, ?_⟩
  intro h
  have : ("0" : String).length = ("00" : String).length := by rw [h]
  simp [String.length] at this
